import Mathlib

/-!
Verification of the move-table and pipeline-setup utilities of the dorado
read-processing code base (`src/dorado/utils/sequence_utils.cpp` and
`src/dorado/cli/basecaller.cpp`), via a shallow embedding in Lean 4.

Move tables are embedded as `List Nat` (the C++ `std::vector<uint8_t>`),
sequences as `List Char` (the C++ `std::string`), and the C++ `int` cursors of
`realign_moves` as `Int`.  Loops are embedded as structurally recursive
functions; the loops of `realign_moves` carry an explicit fuel argument that
the top-level entry point instantiates above the loop's reachable iteration
count, so exhaustion is unreachable and every function evaluates by `rfl`.
Reads past the end of a C++ buffer (undefined behaviour) are modelled as an
explicit error value, and the defined-but-easy-to-miss fact that
`std::string::operator[]` at exactly `size()` yields the null character is
modelled faithfully.  The external collaborators (minimap2 behind
`compute_overlap`, and edlib) are passed to the embedded `realign_moves` as
function parameters; the named model instances below are derived from the
specification's contracts for them.
-/

/-- Errors representing undefined behaviour of the C++ source: an
out-of-bounds read of the `moves` vector, of the edlib alignment buffer, of a
sequence string, a `substr` call with an out-of-range position, or (an
unreachable artefact of the embedding) fuel exhaustion. -/
inductive RErr where
  | oobMoves : RErr
  | oobAlign : RErr
  | oobSeq : RErr
  | oobSubstr : RErr
  | noFuel : RErr
deriving DecidableEq

/-- Read `moves[i]` with a C++ `int` index: defined only for `0 <= i < size`. -/
def readI (l : List Nat) (i : Int) : Option Nat :=
  if h : 0 ≤ i ∧ i < (l.length : Int) then
    some (l.get ⟨i.toNat, by omega⟩)
  else
    none

/-- Read `s[i]` of a `const std::string` with a C++ `int` index: defined for
`0 <= i < size`, and at exactly `i = size` it yields the null character as
C++ guarantees; any other index is undefined behaviour. -/
def readChar (s : List Char) (i : Int) : Option Char :=
  if h : 0 ≤ i ∧ i < (s.length : Int) then
    some (s.get ⟨i.toNat, by omega⟩)
  else if i = (s.length : Int) then
    some (Char.ofNat 0)
  else
    none

theorem readI_natCast (m : List Nat) (j : Nat) : readI m (j : Int) = m.get? j := by
  unfold readI
  split
  · rename_i h
    rw [List.get?_eq_get (by exact_mod_cast h.2)]
    simp
  · rename_i h
    rw [List.get?_eq_none.mpr (by omega)]

/-- Embedding of `moves_to_map` (src/dorado/utils/sequence_utils.cpp:166-183):
the loop body, scanning `moves` from index `i`, pushing `i * block_stride`
for every entry equal to 1.  (`reserve_size` only pre-allocates capacity in
the source and has no effect on the produced values, so it is omitted.) -/
def moves_to_map_go (block_stride : Nat) : List Nat → Nat → List Nat
  | [], _ => []
  | v :: rest, i =>
      (if v = 1 then [i * block_stride] else []) ++ moves_to_map_go block_stride rest (i + 1)

/-- Embedding of `moves_to_map`: scan the table, then push `signal_len`. -/
def moves_to_map (moves : List Nat) (block_stride : Nat) (signal_len : Nat) : List Nat :=
  moves_to_map_go block_stride moves 0 ++ [signal_len]

/-- Indices (counted from `i`) of the entries of a list that are equal to 1;
a specification-side description used to state theorems about
`moves_to_map`. -/
def onePositionsFrom : Nat → List Nat → List Nat
  | _, [] => []
  | i, v :: rest => (if v = 1 then [i] else []) ++ onePositionsFrom (i + 1) rest

/-- Indices of the 1-entries of a move table. -/
def onePositions (m : List Nat) : List Nat := onePositionsFrom 0 m

theorem moves_to_map_go_eq (block_stride : Nat) :
    ∀ (l : List Nat) (i : Nat),
      moves_to_map_go block_stride l i = (onePositionsFrom i l).map (fun j => j * block_stride)
  | [], _ => rfl
  | v :: rest, i => by
      simp only [moves_to_map_go, onePositionsFrom, List.map_append,
        moves_to_map_go_eq block_stride rest (i + 1)]
      split <;> simp

theorem onePositionsFrom_length_eq_count :
    ∀ (l : List Nat) (i : Nat), (onePositionsFrom i l).length = l.count 1
  | [], _ => rfl
  | v :: rest, i => by
      simp only [onePositionsFrom, List.count_cons, List.length_append,
        onePositionsFrom_length_eq_count rest (i + 1)]
      split <;> rename_i h <;> (simp [h]; try omega)

theorem onePositionsFrom_replicate_zero :
    ∀ (z : Nat) (i : Nat), onePositionsFrom i (List.replicate z 0) = []
  | 0, _ => rfl
  | z + 1, i => by
      simp only [List.replicate, onePositionsFrom, onePositionsFrom_replicate_zero z (i + 1)]
      simp

/-- Embedding of `move_cum_sums` (src/dorado/utils/sequence_utils.cpp:334-343):
`ans[0] = moves[0]` and `ans[i] = ans[i-1] + moves[i]`, i.e. the inclusive
running sum starting from accumulator `acc`. -/
def cumsum_from (acc : Nat) : List Nat → List Nat
  | [] => []
  | v :: rest => (acc + v) :: cumsum_from (acc + v) rest

/-- Embedding of `move_cum_sums`: inclusive prefix sums of the move table
(the empty table yields the empty vector, as the source allocates a vector of
the same size as its input). -/
def move_cum_sums (moves : List Nat) : List Nat := cumsum_from 0 moves

/-- C10: `moves_to_map` maps each index carrying a 1 to `index * block_stride`
and appends the terminal sentinel `signal_len`; hence the output length is the
number of 1-entries plus one, and an all-zero table yields `[signal_len]`. -/
theorem moves_to_map_sentinel (moves : List Nat) (block_stride signal_len z : Nat) :
    moves_to_map moves block_stride signal_len
        = (onePositions moves).map (fun j => j * block_stride) ++ [signal_len]
      ∧ (moves_to_map moves block_stride signal_len).length = moves.count 1 + 1
      ∧ moves_to_map (List.replicate z 0) block_stride signal_len = [signal_len] := by
  refine ⟨?_, ?_, ?_⟩
  · simp [moves_to_map, onePositions, moves_to_map_go_eq]
  · simp [moves_to_map, onePositions, moves_to_map_go_eq, onePositionsFrom_length_eq_count]
  · simp [moves_to_map, onePositions, moves_to_map_go_eq, onePositionsFrom_replicate_zero]

/-- The move table of the specification's coordinate-mapping example. -/
def exampleMoves : List Nat := [1, 1, 0, 0, 0, 1, 1, 1, 0, 0, 1, 0, 1]

/-- C4 counterexample: on the specification's example table, neither
`moves_to_map` (which appends the terminal `signal_len`, here 13) nor
`move_cum_sums` (which produces per-block running sums) returns exactly
`[0, 1, 5, 6, 7, 10, 12]`. -/
theorem moves_to_map_example_ne :
    moves_to_map exampleMoves 1 13 ≠ [0, 1, 5, 6, 7, 10, 12]
      ∧ move_cum_sums exampleMoves ≠ [0, 1, 5, 6, 7, 10, 12] :=
  ⟨by decide, by decide⟩

/-- C4 amended: on the example table `[1,1,0,0,0,1,1,1,0,0,1,0,1]`,
`moves_to_map` with block stride 1 produces the base-start offsets
`[0,1,5,6,7,10,12]` followed by the terminal `signal_len`, and
`move_cum_sums` produces the per-block cumulative base counts
`[1,2,2,2,2,3,4,5,5,5,6,6,7]`. -/
theorem moves_to_map_example (signal_len : Nat) :
    moves_to_map exampleMoves 1 signal_len = [0, 1, 5, 6, 7, 10, 12, signal_len]
      ∧ move_cum_sums exampleMoves = [1, 2, 2, 2, 2, 3, 4, 5, 5, 5, 6, 6, 7] :=
  ⟨rfl, rfl⟩

/-- Modelled from the spec: the Watson-Crick complement lookup table
(`dorado::utils::complement_table`, declared in `sequence_utils.h`, which is
not among the provided sources).  The AVX2 path of the source
(src/dorado/utils/sequence_utils.cpp:62-64) fixes the mapping on the canonical
bases as A to T, C to G, G to C, T to A; entries outside the canonical bases
are modelled as the zero character. -/
def complement_table (c : Char) : Char :=
  if c = 'A' then 'T'
  else if c = 'C' then 'G'
  else if c = 'G' then 'C'
  else if c = 'T' then 'A'
  else Char.ofNat 0

/-- Embedding of `reverse_complement_impl` / `reverse_complement`
(src/dorado/utils/sequence_utils.cpp:23-41 and 348-351): the empty sequence
yields the empty result, and otherwise position `i` of the result is the
table entry of position `size - 1 - i` of the input, i.e. the table applied
to the reversed input. -/
def reverse_complement (sequence : List Char) : List Char :=
  if sequence = [] then [] else sequence.reverse.map complement_table

/-- C9: on sequences over the canonical bases A, C, G, T,
`reverse_complement` preserves length, places at position `i` the complement
of input position `length - 1 - i`, is an involution, and maps the empty
sequence to the empty sequence. -/
theorem reverse_complement_involution (s : List Char)
    (h : ∀ c ∈ s, c = 'A' ∨ c = 'C' ∨ c = 'G' ∨ c = 'T') :
    (reverse_complement s).length = s.length
      ∧ (∀ i, i < s.length →
          (reverse_complement s).get? i = (s.get? (s.length - 1 - i)).map complement_table)
      ∧ reverse_complement (reverse_complement s) = s
      ∧ reverse_complement ([] : List Char) = [] := by
  refine ⟨?_, ?_, ?_, rfl⟩
  · by_cases hs : s = [] <;> simp [reverse_complement, hs]
  · intro i hi
    have hs : s ≠ [] := by intro hc; rw [hc] at hi; simp at hi
    simp only [reverse_complement, if_neg hs, List.get?_map]
    rw [List.get?_reverse (by simpa using hi)]
  · have hrc : ∀ l : List Char, reverse_complement l = l.reverse.map complement_table := by
      intro l
      by_cases hl : l = []
      · subst hl; rfl
      · simp [reverse_complement, hl]
    rw [hrc, hrc]
    simp only [List.map_reverse, List.reverse_reverse, List.map_map]
    have hcc : ∀ c ∈ s, (complement_table ∘ complement_table) c = c := by
      intro c hc
      rcases h c hc with h' | h' | h' | h' <;> subst h' <;> rfl
    rw [List.map_congr_left hcc, List.map_id']

/-- Witness for C9 at the concrete sequence ACGT. -/
theorem reverse_complement_involution_witness :
    (∀ c ∈ (['A', 'C', 'G', 'T'] : List Char), c = 'A' ∨ c = 'C' ∨ c = 'G' ∨ c = 'T')
      ∧ ((reverse_complement ['A', 'C', 'G', 'T']).length
            = (['A', 'C', 'G', 'T'] : List Char).length
          ∧ (∀ i, i < (['A', 'C', 'G', 'T'] : List Char).length →
              (reverse_complement ['A', 'C', 'G', 'T']).get? i
                = ((['A', 'C', 'G', 'T'] : List Char).get?
                    ((['A', 'C', 'G', 'T'] : List Char).length - 1 - i)).map complement_table)
          ∧ reverse_complement (reverse_complement ['A', 'C', 'G', 'T']) = ['A', 'C', 'G', 'T']
          ∧ reverse_complement ([] : List Char) = []) :=
  ⟨by decide, reverse_complement_involution ['A', 'C', 'G', 'T'] (by decide)⟩

/-- Modelled from the spec: the resolved model selection produced by
`ModelComplexParser::parse` (the parser itself is not among the provided
sources); per the specification it is a structured record carrying the raw
argument text, and `is_path()` distinguishes a filesystem-path selection from
a model-complex selection.  Inequality of two selections is component-wise,
as used by `operator!=` in the source. -/
structure ModelSelection where
  raw : String
  path : Bool
deriving DecidableEq

/-- Outcome of the resume-validation block of `setup`
(src/dorado/cli/basecaller.cpp:209-246): either a thrown
`std::runtime_error` (a fatal configuration error) carrying its message, or
readiness, carrying the records replayed into the sink by
`ResumeLoaderNode::copy_completed_reads` and the identifiers exposed by
`get_processed_read_ids`. -/
inductive ResumeOutcome where
  | config_error : String → ResumeOutcome
  | ready : List String → List String → ResumeOutcome
deriving DecidableEq

/-- Embedding of the resume-validation block of `setup`
(src/dorado/cli/basecaller.cpp:209-246).  `parse_model` stands for
`ModelComplexParser::parse` (the same parsing routine the live run used to
produce `model_selection`), `extract_model_name` for
`models::extract_model_name_from_path`, `embedded_model_arg` for the model
token recovered from the prior output's embedded command line, and
`completed_reads` for the fully-written records of the prior output. -/
def setup_resume (parse_model : String → ModelSelection)
    (extract_model_name : String → String)
    (model_name : String) (model_selection : ModelSelection)
    (embedded_model_arg : String) (completed_reads : List String) : ResumeOutcome :=
  let resume_selection := parse_model embedded_model_arg
  if resume_selection.path then
    let resume_model_name := extract_model_name embedded_model_arg
    if model_name ≠ resume_model_name then
      ResumeOutcome.config_error
        ("Resume only works if the same model is used. Resume model was "
          ++ resume_model_name ++ " and current model is " ++ model_name)
    else
      ResumeOutcome.ready completed_reads completed_reads
  else if resume_selection ≠ model_selection then
    ResumeOutcome.config_error
      ("Resume only works if the same model is used. Resume model complex was "
        ++ resume_selection.raw ++ " and current model is " ++ model_selection.raw)
  else
    ResumeOutcome.ready completed_reads completed_reads

/-- Whether a resume outcome is a raised configuration error. -/
def ResumeOutcome.isErr : ResumeOutcome → Bool
  | ResumeOutcome.config_error _ => true
  | ResumeOutcome.ready _ _ => false

/-- C7: the embedded model argument of the prior output is re-parsed with the
same parsing routine as the live run; a path selection whose model name
differs from the current model name, or a non-path selection differing from
the current resolved selection, raises a configuration error and nothing is
replayed; only on a match are the completed reads replayed into the sink and
their identifiers exposed as the processed-id set. -/
theorem setup_resume_validation (parse_model : String → ModelSelection)
    (extract_model_name : String → String)
    (model_name : String) (model_selection : ModelSelection)
    (embedded_model_arg : String) (completed_reads : List String) :
    ((parse_model embedded_model_arg).path = true →
        extract_model_name embedded_model_arg ≠ model_name →
        (setup_resume parse_model extract_model_name model_name model_selection
            embedded_model_arg completed_reads).isErr = true)
      ∧ ((parse_model embedded_model_arg).path = false →
          parse_model embedded_model_arg ≠ model_selection →
          (setup_resume parse_model extract_model_name model_name model_selection
              embedded_model_arg completed_reads).isErr = true)
      ∧ ((parse_model embedded_model_arg).path = true →
          extract_model_name embedded_model_arg = model_name →
          setup_resume parse_model extract_model_name model_name model_selection
              embedded_model_arg completed_reads
            = ResumeOutcome.ready completed_reads completed_reads)
      ∧ ((parse_model embedded_model_arg).path = false →
          parse_model embedded_model_arg = model_selection →
          setup_resume parse_model extract_model_name model_name model_selection
              embedded_model_arg completed_reads
            = ResumeOutcome.ready completed_reads completed_reads) := by
  refine ⟨?_, ?_, ?_, ?_⟩
  · intro hp hne
    simp [setup_resume, hp, Ne.symm hne, ResumeOutcome.isErr]
  · intro hp hne
    simp [setup_resume, hp, hne, ResumeOutcome.isErr]
  · intro hp heq
    simp [setup_resume, hp, heq]
  · intro hp heq
    have hp' : model_selection.path = false := heq ▸ hp
    simp [setup_resume, heq, hp']

/-- Witness for C7: a concrete parser, extractor and selection exercising the
mismatch branch and the match branch. -/
theorem setup_resume_validation_witness :
    ((fun _ : String => ModelSelection.mk "m" true) "x").path = true
      ∧ (fun s : String => s) "x" ≠ "other"
      ∧ (setup_resume (fun _ => ModelSelection.mk "m" true) (fun s => s)
          "other" (ModelSelection.mk "m" true) "x" ["r1"]).isErr = true
      ∧ setup_resume (fun _ => ModelSelection.mk "m" true) (fun s => s)
          "x" (ModelSelection.mk "m" true) "x" ["r1"] = ResumeOutcome.ready ["r1"] ["r1"] := by
  refine ⟨rfl, by decide, ?_, ?_⟩
  · exact (setup_resume_validation (fun _ => ModelSelection.mk "m" true) (fun s => s)
      "other" (ModelSelection.mk "m" true) "x" ["r1"]).1 rfl (by decide)
  · exact (setup_resume_validation (fun _ => ModelSelection.mk "m" true) (fun s => s)
      "x" (ModelSelection.mk "m" true) "x" ["r1"]).2.2.1 rfl rfl

/-- Outcome of the input-presence checks at the top of `setup`
(src/dorado/cli/basecaller.cpp:92-104): the thrown `std::runtime_error` when
no POD5/FAST5 data is found (caught by `basecaller`, which then exits
non-zero), the `spdlog::error` plus `std::exit(EXIT_FAILURE)` when zero reads
resolve, or continuation into pipeline construction with the capped read
count. -/
inductive SetupOutcome where
  | errNoData : SetupOutcome
  | errNoReads : SetupOutcome
  | proceed : Nat → SetupOutcome
deriving DecidableEq

/-- Embedding of the input checks of `setup`
(src/dorado/cli/basecaller.cpp:92-104).  `data_present` stands for
`DataLoader::is_read_data_present(data_path, recursive_file_loading)` and
`num_reads` for `DataLoader::get_num_reads(...)` (the DataLoader is not among
the provided sources); both checks run before any pipeline node is
constructed. -/
def setup_entry (data_present : Bool) (num_reads max_reads : Nat) : SetupOutcome :=
  if !data_present then
    SetupOutcome.errNoData
  else if num_reads = 0 then
    SetupOutcome.errNoReads
  else
    SetupOutcome.proceed (if max_reads = 0 then num_reads else min num_reads max_reads)

/-- C8: a run with no read data fails with the no-data error, a run whose
read count resolves to zero fails with the distinct no-reads error, the two
errors are distinguishable, and the setup proceeds to pipeline work only when
data is present and the read count is positive. -/
theorem setup_entry_empty_input (data_present : Bool) (num_reads max_reads : Nat) :
    (data_present = false → setup_entry data_present num_reads max_reads = SetupOutcome.errNoData)
      ∧ (data_present = true → num_reads = 0 →
          setup_entry data_present num_reads max_reads = SetupOutcome.errNoReads)
      ∧ SetupOutcome.errNoData ≠ SetupOutcome.errNoReads
      ∧ (∀ k, setup_entry data_present num_reads max_reads = SetupOutcome.proceed k →
          data_present = true ∧ 0 < num_reads) := by
  refine ⟨?_, ?_, by decide, ?_⟩
  · intro hp
    simp [setup_entry, hp]
  · intro hp hn
    simp [setup_entry, hp, hn]
  · intro k hk
    by_cases hp : data_present
    · by_cases hn : num_reads = 0
      · simp [setup_entry, hp, hn] at hk
      · exact ⟨hp, by omega⟩
    · simp [setup_entry, hp] at hk

/-- Witness for C8: concrete empty-input runs produce the two distinct
errors. -/
theorem setup_entry_empty_input_witness :
    setup_entry false 7 0 = SetupOutcome.errNoData
      ∧ setup_entry true 0 0 = SetupOutcome.errNoReads :=
  ⟨(setup_entry_empty_input false 7 0).1 rfl,
   (setup_entry_empty_input true 0 0).2.1 rfl rfl⟩

/-- The overlap result as destructured by `realign_moves`
(src/dorado/utils/sequence_utils.cpp:238-240):
`auto [is_overlap, query_start, query_end, target_start, target_end] =
compute_overlap(query_sequence, target_sequence)`.  The `compute_overlap`
wrapper itself (lines 185-231) only packages the best minimap2 hit, an
external collaborator, so the whole overlap computation enters the embedding
as a function parameter producing this record. -/
structure OverlapResult where
  is_overlap : Bool
  query_start : Int
  query_end : Int
  target_start : Int
  target_end : Int

/-- The part of an `EdlibAlignResult` that `realign_moves` reads:
`locations = none` models `startLocations == nullptr` (alignment failure);
otherwise the pair carries `startLocations[0]` and `endLocations[0]`;
`alignment` is the operation path (0 match, 1 insertion to target, 2 insertion
to query, 3 mismatch).  Edlib is an external collaborator, so it enters the
embedding as a function parameter producing this record. -/
structure EdlibResult where
  locations : Option (Int × Int)
  alignment : List Nat

/-- The failure sentinel of `realign_moves`
(src/dorado/utils/sequence_utils.cpp:242): offsets (-1, -1) and an empty
move table. -/
def failed_realignment : Int × Int × List Nat := (-1, -1, [])

/-- Embedding of the boundary-refinement loop of `realign_moves`
(src/dorado/utils/sequence_utils.cpp:250-253):
`while (query_sequence[query_start] != target_sequence[target_start])
{ ++query_start; ++target_start; }`, called after both cursors have already
been incremented once.  The loop has no bounds check; reading either string
beyond `size()` is undefined behaviour (reading at exactly `size()` yields
the null character). -/
def refineScan (q t : List Char) : Nat → Int → Int → Except RErr (Int × Int)
  | 0, _, _ => Except.error RErr.noFuel
  | fuel + 1, qs, ts =>
      match readChar q qs, readChar t ts with
      | some a, some b =>
          if a = b then Except.ok (qs, ts) else refineScan q t fuel (qs + 1) (ts + 1)
      | _, _ => Except.error RErr.oobSeq

/-- Embedding of `std::string::substr(pos, count)` with C++ `int` arguments
converted to `size_t`: a negative or too-large position throws
`std::out_of_range` (modelled as an error); a negative count wraps to a huge
`size_t` and is clamped to the rest of the string. -/
def csubstr (s : List Char) (pos cnt : Int) : Except RErr (List Char) :=
  if pos < 0 ∨ (s.length : Int) < pos then Except.error RErr.oobSubstr
  else Except.ok ((s.drop pos.toNat).take (if cnt < 0 then s.length else cnt.toNat))

/-- Embedding of the old-move-cursor initialisation loop of `realign_moves`
(src/dorado/utils/sequence_utils.cpp:280-285):
`while (moves_found < int(moves.size()) && moves_found < int(query_start))
{ moves_found += moves[old_move_cursor]; ++old_move_cursor; }`.
Returns the cursor position after the loop (before the `--old_move_cursor`
correction).  The cursor itself is unchecked in the source, so running it
past the vector is undefined behaviour. -/
def initScan (moves : List Nat) (qs : Int) : Nat → Int → Int → Except RErr Int
  | 0, _, _ => Except.error RErr.noFuel
  | fuel + 1, mf, oc =>
      if mf < (moves.length : Int) ∧ mf < qs then
        match readI moves oc with
        | some v => initScan moves qs fuel (mf + v) (oc + 1)
        | none => Except.error RErr.oobMoves
      else
        Except.ok oc

/-- Embedding of the inner loop of the match/mismatch branch of
`realign_moves` (src/dorado/utils/sequence_utils.cpp:302-310):
`while (moves[old_move_cursor] == 0)` either advances the old cursor silently
(when `old_move_cursor < new_move_cursor + old_moves_offset`) or emits a 0
into the new table while advancing both cursors. -/
def skipZeros1 (moves : List Nat) (off : Int) :
    Nat → List Nat → Int → Int → Except RErr (List Nat × Int × Int)
  | 0, _, _, _ => Except.error RErr.noFuel
  | fuel + 1, nm, nc, oc =>
      match readI moves oc with
      | none => Except.error RErr.oobMoves
      | some v =>
          if v = 0 then
            if oc < nc + off then skipZeros1 moves off fuel nm nc (oc + 1)
            else skipZeros1 moves off fuel (nm ++ [0]) (nc + 1) (oc + 1)
          else Except.ok (nm, nc, oc)

/-- Embedding of the inner loop of the insertion-to-query branch of
`realign_moves` (src/dorado/utils/sequence_utils.cpp:321-325):
`while (moves[old_move_cursor] == 0)` emits a 0 into the new table and
advances both cursors. -/
def skipZeros2 (moves : List Nat) :
    Nat → List Nat → Int → Int → Except RErr (List Nat × Int × Int)
  | 0, _, _, _ => Except.error RErr.noFuel
  | fuel + 1, nm, nc, oc =>
      match readI moves oc with
      | none => Except.error RErr.oobMoves
      | some v =>
          if v = 0 then skipZeros2 moves fuel (nm ++ [0]) (nc + 1) (oc + 1)
          else Except.ok (nm, nc, oc)

/-- Embedding of the alignment-walking loop of `realign_moves`
(src/dorado/utils/sequence_utils.cpp:291-327): for each walked alignment
entry, a match/mismatch (0 or 3) pushes a 1 then runs the `skipZeros1` inner
loop, an insertion to target (1) pushes a 1, an insertion to query (2) pushes
a 0 then runs the `skipZeros2` inner loop, and any other value falls through
all branches.  State is (new move table, new-table cursor, old-table
cursor). -/
def walkOps (moves : List Nat) (off : Int) (fuel : Nat) :
    List Nat → List Nat → Int → Int → Except RErr (List Nat × Int × Int)
  | [], nm, nc, oc => Except.ok (nm, nc, oc)
  | op :: rest, nm, nc, oc =>
      if op = 0 ∨ op = 3 then
        match skipZeros1 moves off fuel (nm ++ [1]) (nc + 1) (oc + 1) with
        | Except.ok (nm', nc', oc') => walkOps moves off fuel rest nm' nc' oc'
        | Except.error e => Except.error e
      else if op = 1 then
        walkOps moves off fuel rest (nm ++ [1]) (nc + 1) oc
      else if op = 2 then
        match skipZeros2 moves fuel (nm ++ [0]) (nc + 1) (oc + 1) with
        | Except.ok (nm', nc', oc') => walkOps moves off fuel rest nm' nc' oc'
        | Except.error e => Except.error e
      else
        walkOps moves off fuel rest nm nc oc

/-- Embedding of `realign_moves` (src/dorado/utils/sequence_utils.cpp:235-332).
The overlap computation (`compute_overlap`, wrapping minimap2) and the edlib
alignment enter as the function parameters `overlapFn` and `edlibFn`; the
rest follows the source line by line: the no-overlap early return of the
failure sentinel; the pre-incremented boundary-refinement scan; the two
`substr` window extractions; the `edlibAlign` call (whose C++ argument order
passes the target window as edlib's query and the query window as edlib's
target); the null-`startLocations` early return of the failure sentinel; the
old-cursor initialisation scan followed by the `--old_move_cursor`
correction; the walk over the first `endLocations[0] - startLocations[0]`
alignment entries (a negative or too-large count would read the alignment
buffer out of bounds); and the final result
`(old_moves_offset, target_start - 1, new_moves)`.  Error values model
undefined behaviour of the source; normal returns are `Except.ok`. -/
def realign_moves (overlapFn : List Char → List Char → OverlapResult)
    (edlibFn : List Char → List Char → EdlibResult)
    (query_sequence target_sequence : List Char) (moves : List Nat) :
    Except RErr (Int × Int × List Nat) :=
  let ov := overlapFn query_sequence target_sequence
  if ov.is_overlap = false then Except.ok failed_realignment
  else
    match refineScan query_sequence target_sequence
        (query_sequence.length + target_sequence.length + 2)
        (ov.query_start + 1) (ov.target_start + 1) with
    | Except.error e => Except.error e
    | Except.ok (query_start, target_start) =>
        match csubstr target_sequence target_start (ov.target_end - target_start),
              csubstr query_sequence query_start (ov.query_end - query_start) with
        | Except.ok target_sequence_component, Except.ok query_sequence_component =>
            let edlib_result := edlibFn target_sequence_component query_sequence_component
            match edlib_result.locations with
            | none => Except.ok failed_realignment
            | some (startLoc, endLoc) =>
                match initScan moves query_start (moves.length + 2) 0 0 with
                | Except.error e => Except.error e
                | Except.ok oc0 =>
                    let old_moves_offset := oc0 - 1
                    let alignment_size : Int := endLoc - startLoc
                    if alignment_size < 0
                        ∨ (edlib_result.alignment.length : Int) < alignment_size then
                      Except.error RErr.oobAlign
                    else
                      match walkOps moves old_moves_offset (moves.length + 2)
                          (edlib_result.alignment.take alignment_size.toNat)
                          [] 0 old_moves_offset with
                      | Except.error e => Except.error e
                      | Except.ok (new_moves, _, _) =>
                          Except.ok (old_moves_offset, target_start - 1, new_moves)
        | Except.error e, _ => Except.error e
        | _, Except.error e => Except.error e

/-- Modelled from the spec: the overlap detector (minimap2 behind
`compute_overlap`), an external collaborator.  Per the specification's
contracts and testable properties it reports the single best overlap window,
which for identical non-empty sequences is the full-length overlap, and it
reports no hit for empty sequences or for unrelated sequences with no
detectable overlap. -/
def overlapModel (q t : List Char) : OverlapResult :=
  if q ≠ [] ∧ q = t then
    { is_overlap := true, query_start := 0, query_end := (q.length : Int),
      target_start := 0, target_end := (t.length : Int) }
  else
    { is_overlap := false, query_start := 0, query_end := 0,
      target_start := 0, target_end := 0 }

/-- Modelled from the spec: the edit-distance collaborator (edlib, global
path task).  For identical windows the optimal path is all matches, with
global-mode start location 0 and end location `length - 1`; for windows with
no valid path it reports failure (null start locations). -/
def edlibModel (a b : List Char) : EdlibResult :=
  if a = b then
    { locations := some (0, (a.length : Int) - 1), alignment := List.replicate a.length 0 }
  else
    { locations := none, alignment := [] }

theorem readChar_bounds {s : List Char} {i : Int} {c : Char} (h : readChar s i = some c) :
    0 ≤ i ∧ i ≤ (s.length : Int) := by
  unfold readChar at h
  split at h
  · omega
  · split at h
    · omega
    · exact absurd h (by simp)

theorem readChar_isSome (s : List Char) (i : Int) (h0 : 0 ≤ i) (h1 : i ≤ (s.length : Int)) :
    ∃ c, readChar s i = some c := by
  unfold readChar
  rcases lt_or_eq_of_le h1 with h2 | h2
  · exact ⟨_, dif_pos ⟨h0, h2⟩⟩
  · refine ⟨Char.ofNat 0, ?_⟩
    rw [dif_neg (by omega), if_pos h2]

/-- The boundary-refinement scan stops at the first offset `k` (at or after
its starting cursors) where the two sequences agree under C++ string
indexing; positions before `k` must disagree. -/
theorem refineScan_first (q t : List Char) :
    ∀ (k : Nat) (qs ts : Int) (fuel : Nat) (c : Char),
      0 ≤ qs → 0 ≤ ts → k < fuel →
      readChar q (qs + k) = some c → readChar t (ts + k) = some c →
      (∀ j : Nat, j < k → readChar q (qs + j) ≠ readChar t (ts + j)) →
      refineScan q t fuel qs ts = Except.ok (qs + k, ts + k)
  | 0, qs, ts, fuel, c => by
      intro _ _ hfuel hq ht _
      obtain ⟨f, rfl⟩ : ∃ f, fuel = f + 1 := ⟨fuel - 1, by omega⟩
      simp only [Nat.cast_zero, add_zero] at hq ht ⊢
      simp [refineScan, hq, ht]
  | k + 1, qs, ts, fuel, c => by
      intro hqs hts hfuel hq ht hmin
      obtain ⟨f, rfl⟩ : ∃ f, fuel = f + 1 := ⟨fuel - 1, by omega⟩
      have hqb := readChar_bounds hq
      have htb := readChar_bounds ht
      obtain ⟨a, ha⟩ := readChar_isSome q qs hqs (by push_cast at hqb; omega)
      obtain ⟨b, hb⟩ := readChar_isSome t ts hts (by push_cast at htb; omega)
      have hab : a ≠ b := fun hcontra => hmin 0 (by omega)
        (by simp only [Nat.cast_zero, add_zero]; rw [ha, hb, hcontra])
      push_cast at hq ht ⊢
      have hstep : refineScan q t (f + 1) qs ts = refineScan q t f (qs + 1) (ts + 1) := by
        simp [refineScan, ha, hb, hab]
      rw [hstep, show qs + ((k : Int) + 1) = (qs + 1) + (k : Int) by ring,
          show ts + ((k : Int) + 1) = (ts + 1) + (k : Int) by ring]
      exact refineScan_first q t k (qs + 1) (ts + 1) f c (by omega) (by omega) (by omega)
        (by rw [show (qs + 1) + (k : Int) = qs + ((k : Int) + 1) by ring]; exact hq)
        (by rw [show (ts + 1) + (k : Int) = ts + ((k : Int) + 1) by ring]; exact ht)
        (fun j hj => by
          have hj1 := hmin (j + 1) (by omega)
          rw [show (qs + 1) + (j : Int) = qs + ((j : Nat) + 1 : Nat) by push_cast; ring,
              show (ts + 1) + (j : Int) = ts + ((j : Nat) + 1 : Nat) by push_cast; ring]
          exact hj1)

theorem initScan_start (m : List Nat) (fuel : Nat) (hm0 : m.get? 0 = some 1)
    (hlen : 1 ≤ m.length) :
    initScan m 1 (fuel + 2) 0 0 = Except.ok 1 := by
  have h0 : readI m 0 = some 1 := by
    rw [show (0 : Int) = ((0 : Nat) : Int) by simp, readI_natCast]
    exact hm0
  have hc1 : (0 : Int) < (m.length : Int) ∧ (0 : Int) < 1 := by
    constructor <;> [exact_mod_cast hlen; omega]
  rw [show fuel + 2 = (fuel + 1) + 1 from rfl]
  simp [initScan, h0, hc1]

theorem skipZeros1_copy (m : List Nat) :
    ∀ (d fuel s : Nat) (nm : List Nat),
      d < fuel →
      (∀ i : Nat, i < d → m.get? (s + i) = some 0) →
      m.get? (s + d) = some 1 →
      skipZeros1 m 0 fuel nm (s : Int) (s : Int)
        = Except.ok (nm ++ List.replicate d 0, ((s + d : Nat) : Int), ((s + d : Nat) : Int))
  | 0, fuel, s, nm => by
      intro hfuel _ h1
      obtain ⟨f, rfl⟩ : ∃ f, fuel = f + 1 := ⟨fuel - 1, by omega⟩
      have hr : readI m (s : Int) = some 1 := by
        rw [readI_natCast]
        simpa using h1
      simp [skipZeros1, hr]
  | d + 1, fuel, s, nm => by
      intro hfuel h0 h1
      obtain ⟨f, rfl⟩ : ∃ f, fuel = f + 1 := ⟨fuel - 1, by omega⟩
      have hr : readI m (s : Int) = some 0 := by
        rw [readI_natCast]
        simpa using h0 0 (by omega)
      have hnolt : ¬((s : Int) < (s : Int) + 0) := by omega
      have hstep : skipZeros1 m 0 (f + 1) nm (s : Int) (s : Int)
          = skipZeros1 m 0 f (nm ++ [0]) ((s : Int) + 1) ((s : Int) + 1) := by
        simp [skipZeros1, hr, hnolt]
      rw [hstep, show (s : Int) + 1 = ((s + 1 : Nat) : Int) by push_cast; ring]
      rw [skipZeros1_copy m d f (s + 1) (nm ++ [0]) (by omega)
        (fun i hi => by
          rw [show s + 1 + i = s + (i + 1) by omega]
          exact h0 (i + 1) (by omega))
        (by rw [show s + 1 + d = s + (d + 1) by omega]; exact h1)]
      rw [show s + 1 + d = s + (d + 1) by omega, List.append_assoc]
      simp [List.replicate_succ]

theorem first_one_of_count :
    ∀ (l : List Nat), (∀ x ∈ l, x = 0 ∨ x = 1) → 0 < l.count 1 →
      ∃ d, (∀ i, i < d → l.get? i = some 0) ∧ l.get? d = some 1
        ∧ (l.drop (d + 1)).count 1 + 1 = l.count 1
  | [] => by intro _ hc; simp at hc
  | x :: tl => by
      intro hbin hc
      rcases hbin x (by simp) with hx | hx
      · subst hx
        have hc' : 0 < tl.count 1 := by simpa using hc
        obtain ⟨d, hzero, hone, hcnt⟩ :=
          first_one_of_count tl (fun y hy => hbin y (by simp [hy])) hc'
        refine ⟨d + 1, ?_, by simpa using hone, ?_⟩
        · intro i hi
          cases i with
          | zero => simp
          | succ j => simpa using hzero j (by omega)
        · simpa using hcnt
      · subst hx
        exact ⟨0, by omega, by simp, by simp⟩

theorem take_one_of_get? {l : List Nat} {a : Nat} (h : l.get? 0 = some a) :
    l.take 1 = [a] := by
  cases l with
  | nil => simp at h
  | cons x tl =>
      simp at h
      simp [h]

theorem take_replicate_of_get? :
    ∀ (d : Nat) (l : List Nat), (∀ i, i < d → l.get? i = some 0) →
      l.take d = List.replicate d 0
  | 0, l => by simp
  | d + 1, l => by
      intro h
      cases l with
      | nil => exact absurd (h 0 (by omega)) (by simp)
      | cons x tl =>
          have hx : x = 0 := by simpa using h 0 (by omega)
          subst hx
          rw [List.take_succ_cons, List.replicate_succ]
          rw [take_replicate_of_get? d tl (fun i hi => by simpa using h (i + 1) (by omega))]

theorem walkOps_copy (m : List Nat) (hbin : ∀ x ∈ m, x = 0 ∨ x = 1) :
    ∀ (k : Nat) (p : Nat) (nm : List Nat),
      m.get? p = some 1 →
      k ≤ (m.drop (p + 1)).count 1 →
      ∃ p' : Nat, p ≤ p' ∧ p' < m.length ∧ m.get? p' = some 1 ∧
        walkOps m 0 (m.length + 2) (List.replicate k 0) nm (p : Int) (p : Int)
          = Except.ok (nm ++ (m.drop p).take (p' - p), (p' : Int), (p' : Int))
  | 0, p, nm => by
      intro hp _
      refine ⟨p, le_refl p, ?_, hp, ?_⟩
      · exact List.get?_eq_some.mp hp |>.choose
      · simp [walkOps]
  | k + 1, p, nm => by
      intro hp hk
      have hplen : p < m.length := (List.get?_eq_some.mp hp).choose
      have hcpos : 0 < (m.drop (p + 1)).count 1 := by omega
      obtain ⟨d, hzero, hone, hcnt⟩ :=
        first_one_of_count (m.drop (p + 1))
          (fun y hy => hbin y (List.mem_of_mem_drop hy)) hcpos
      have hzero' : ∀ i, i < d → m.get? (p + 1 + i) = some 0 := fun i hi => by
        rw [← List.get?_drop]
        exact hzero i hi
      have hone' : m.get? (p + 1 + d) = some 1 := by
        rw [← List.get?_drop]
        exact hone
      have hqlen : p + 1 + d < m.length := (List.get?_eq_some.mp hone').choose
      have hskip := skipZeros1_copy m d (m.length + 2) (p + 1) (nm ++ [1])
        (by omega) hzero' hone'
      have hstep : walkOps m 0 (m.length + 2) (List.replicate (k + 1) 0) nm (p : Int) (p : Int)
          = walkOps m 0 (m.length + 2) (List.replicate k 0)
              ((nm ++ [1]) ++ List.replicate d 0)
              ((p + 1 + d : Nat) : Int) ((p + 1 + d : Nat) : Int) := by
        rw [List.replicate_succ]
        simp only [walkOps]
        rw [show (p : Int) + 1 = ((p + 1 : Nat) : Int) by push_cast; ring, hskip]
        simp
      have hkq : k ≤ (m.drop (p + 1 + d + 1)).count 1 := by
        have hdd : (m.drop (p + 1)).drop (d + 1) = m.drop (p + 1 + d + 1) := by
          rw [List.drop_drop]
          congr 1
        rw [← hdd]
        omega
      obtain ⟨p', hp'ge, hp'lt, hp'one, hwalk⟩ :=
        walkOps_copy m hbin k (p + 1 + d) ((nm ++ [1]) ++ List.replicate d 0) hone' hkq
      refine ⟨p', by omega, hp'lt, hp'one, ?_⟩
      rw [hstep, hwalk]
      have hsplit : (m.drop p).take (p' - p)
          = [1] ++ List.replicate d 0 ++ (m.drop (p + 1 + d)).take (p' - (p + 1 + d)) := by
        have h1 : (m.drop p).take 1 = [1] := take_one_of_get? (by rw [List.get?_drop]; simpa using hp)
        have h2 : (m.drop (p + 1)).take d = List.replicate d 0 :=
          take_replicate_of_get? d (m.drop (p + 1))
            (fun i hi => by rw [List.get?_drop]; exact hzero' i hi)
        have hd1 : (m.drop p).drop 1 = m.drop (p + 1) := by
          rw [List.drop_drop]
        have hd2 : (m.drop (p + 1)).drop d = m.drop (p + 1 + d) := by
          rw [List.drop_drop]
        rw [show p' - p = 1 + (d + (p' - (p + 1 + d))) by omega, List.take_add, h1, hd1,
          List.take_add, h2, hd2, List.append_assoc]
      rw [hsplit]
      simp [List.append_assoc]

/-- C1 amended: with the specification's ideal collaborators (full-length
overlap for identical sequences; perfect all-match global alignment),
realigning a well-formed move table `m` of a sequence `s` of length at least
2 against the identical revised sequence succeeds with offsets (0, 0) but
returns a strict prefix of `m` (the entries for the final two bases are
dropped by the source's forced pre-increment of the refinement scan and its
`endLocations[0] - startLocations[0]` walk bound), never `m` itself. -/
theorem realign_moves_roundtrip_drop (s : List Char) (m : List Nat)
    (hn : 2 ≤ s.length)
    (hm0 : m.get? 0 = some 1)
    (hbin : ∀ x ∈ m, x = 0 ∨ x = 1)
    (hcount : m.count 1 = s.length) :
    ∃ p, p < m.length ∧ m.take p ≠ m ∧
      realign_moves overlapModel edlibModel s s m = Except.ok (0, 0, m.take p) := by
  have hne : s ≠ [] := by
    intro h
    rw [h] at hn
    simp at hn
  have hov : overlapModel s s
      = { is_overlap := true, query_start := 0, query_end := (s.length : Int),
          target_start := 0, target_end := (s.length : Int) } := by
    simp [overlapModel, hne]
  obtain ⟨c1, hc1⟩ := readChar_isSome s 1 (by omega) (by omega)
  have hrefine : refineScan s s (s.length + s.length + 2) 1 1 = Except.ok (1, 1) := by
    have h0 := refineScan_first s s 0 1 1 (s.length + s.length + 2) c1 (by omega) (by omega)
      (by omega) (by simpa using hc1) (by simpa using hc1)
      (fun j hj => absurd hj (by omega))
    simpa using h0
  have hsub : csubstr s 1 ((s.length : Int) - 1) = Except.ok (s.drop 1) := by
    unfold csubstr
    rw [if_neg (by omega), if_neg (by omega)]
    rw [show ((1 : Int)).toNat = 1 from rfl, show ((s.length : Int) - 1).toNat = s.length - 1 by omega]
    rw [List.take_of_length_le (by rw [List.length_drop])]
  have hinit : initScan m 1 (m.length + 2) 0 0 = Except.ok 1 :=
    initScan_start m m.length hm0 (by
      have hlt := (List.get?_eq_some.mp hm0).choose
      omega)
  have hdropcount : (m.drop 1).count 1 = s.length - 1 := by
    cases m with
    | nil => simp at hm0
    | cons a tl =>
        have ha : a = 1 := by simpa using hm0
        subst ha
        simp only [List.count_cons, List.drop_succ_cons, List.drop_zero] at hcount ⊢
        simp at hcount
        omega
  obtain ⟨p', hp'ge, hp'lt, hp'one, hwalk⟩ :=
    walkOps_copy m hbin (s.length - 2) 0 [] hm0 (by rw [hdropcount]; omega)
  refine ⟨p', hp'lt, ?_, ?_⟩
  · intro hEq
    have hlen := congrArg List.length hEq
    rw [List.length_take] at hlen
    omega
  · simp only [realign_moves, hov]
    rw [if_neg (by simp)]
    rw [show (0 : Int) + 1 = 1 by ring, hrefine]
    simp only
    rw [hsub]
    simp only
    have hed : edlibModel (s.drop 1) (s.drop 1)
        = { locations := some (0, ((s.length - 1 : Nat) : Int) - 1),
            alignment := List.replicate (s.length - 1) 0 } := by
      simp [edlibModel]
    rw [hed]
    simp only
    rw [hinit]
    simp only
    rw [if_neg (by simp only [List.length_replicate]; omega)]
    rw [show ((((s.length - 1 : Nat) : Int) - 1) - 0).toNat = s.length - 2 by omega]
    rw [List.take_replicate, show min (s.length - 2) (s.length - 1) = s.length - 2 by omega]
    have hwalk' : walkOps m 0 (m.length + 2) (List.replicate (s.length - 2) 0) [] (0 : Int) (0 : Int)
        = Except.ok (m.take p', (p' : Int), (p' : Int)) := by simpa using hwalk
    norm_num
    rw [hwalk']

/-- C1 counterexample: with the ideal collaborators, realigning the table
`[1,1,1,1]` of the sequence ACGT against the identical revised sequence ACGT
succeeds but returns the table `[1,1]`, not the original table. -/
theorem realign_moves_roundtrip_ne :
    realign_moves overlapModel edlibModel ['A', 'C', 'G', 'T'] ['A', 'C', 'G', 'T'] [1, 1, 1, 1]
        = Except.ok (0, 0, [1, 1])
      ∧ ([1, 1] : List Nat) ≠ [1, 1, 1, 1] :=
  ⟨rfl, by decide⟩

/-- Witness for C1 at the sequence ACGT and the table `[1,1,1,1]`. -/
theorem realign_moves_roundtrip_drop_witness :
    2 ≤ (['A', 'C', 'G', 'T'] : List Char).length
      ∧ (∃ p, p < ([1, 1, 1, 1] : List Nat).length
          ∧ ([1, 1, 1, 1] : List Nat).take p ≠ [1, 1, 1, 1]
          ∧ realign_moves overlapModel edlibModel ['A', 'C', 'G', 'T'] ['A', 'C', 'G', 'T']
              [1, 1, 1, 1] = Except.ok (0, 0, ([1, 1, 1, 1] : List Nat).take p)) :=
  ⟨by decide, realign_moves_roundtrip_drop ['A', 'C', 'G', 'T'] [1, 1, 1, 1]
    (by decide) (by decide) (by decide) (by decide)⟩

/-- C2: with the ideal collaborators on the identical sequences ACGT and the
well-formed table `[1,1,1,1]`, the refined overlap window is the target range
[1, 4), covering 3 revised-sequence bases, but the returned move table carries
only 2 ones: the walk iterates `endLocations[0] - startLocations[0]` (window
length minus one) alignment entries instead of the full alignment path, so the
one-1-per-covered-base invariant fails on the revised sequence. -/
theorem realign_moves_ones_shortfall :
    realign_moves overlapModel edlibModel ['A', 'C', 'G', 'T'] ['A', 'C', 'G', 'T'] [1, 1, 1, 1]
        = Except.ok (0, 0, [1, 1])
      ∧ ([1, 1] : List Nat).count 1 = 2
      ∧ (2 : Nat) ≠ 4 - 1 :=
  ⟨rfl, by decide, by decide⟩

/-- A 50-base original sequence (from the specification's no-overlap test
scenario). -/
def origSeq50 : List Char := "ACGTACGTACGTACGTACGTACGTACGTACGTACGTACGTACGTACGTAC".toList

/-- An unrelated random 50-base revised sequence with no detectable overlap
against `origSeq50`. -/
def revSeq50 : List Char := "TTGCAGTCAGGATCCAGTTCAGGATACCAGGTTACAGCAGGATTCACAGG".toList

/-- A possible response of the external overlap collaborator (per the
specification's contract it may report any best-hit window): an overlap
covering positions 0 to 3 of both sequences; used to drive `realign_moves`
into its edit-distance-failure branch on dissimilar windows. -/
def overlapStub : List Char → List Char → OverlapResult := fun _ _ =>
  { is_overlap := true, query_start := 0, query_end := 3, target_start := 0, target_end := 3 }

/-- C3 counterexample: the no-overlap failure (50-base unrelated sequences)
and the aligner-failure (overlap reported, edlib reports no valid path) both
return exactly `(-1, -1, [])` — the two failure modes are not distinguishable
from each other. -/
theorem realign_moves_failure_modes_indistinct :
    realign_moves overlapModel edlibModel origSeq50 revSeq50 [] = Except.ok (-1, -1, [])
      ∧ realign_moves overlapStub edlibModel ['A', 'A', 'C'] ['A', 'A', 'G'] []
          = Except.ok (-1, -1, [])
      ∧ realign_moves overlapModel edlibModel origSeq50 revSeq50 []
          = realign_moves overlapStub edlibModel ['A', 'A', 'C'] ['A', 'A', 'G'] [] :=
  ⟨rfl, rfl, rfl⟩

/-- C3 amended: whenever the overlap collaborator reports no overlap, and
whenever it reports an overlap but the edit-distance collaborator reports no
valid path, `realign_moves` returns (without throwing or faulting) the one
failure sentinel `(-1, -1, [])` — negative offsets and an empty table, the
same for both failure modes. -/
theorem realign_moves_failure_sentinel :
    (∀ (ovFn : List Char → List Char → OverlapResult)
        (edFn : List Char → List Char → EdlibResult)
        (q t : List Char) (m : List Nat),
        (ovFn q t).is_overlap = false →
        realign_moves ovFn edFn q t m = Except.ok failed_realignment)
      ∧ (∀ (ovFn : List Char → List Char → OverlapResult)
          (edFn : List Char → List Char → EdlibResult)
          (q t : List Char) (m : List Nat) (qs ts : Int) (tc qc : List Char),
          (ovFn q t).is_overlap = true →
          refineScan q t (q.length + t.length + 2)
              ((ovFn q t).query_start + 1) ((ovFn q t).target_start + 1) = Except.ok (qs, ts) →
          csubstr t ts ((ovFn q t).target_end - ts) = Except.ok tc →
          csubstr q qs ((ovFn q t).query_end - qs) = Except.ok qc →
          (edFn tc qc).locations = none →
          realign_moves ovFn edFn q t m = Except.ok failed_realignment) := by
  constructor
  · intro ovFn edFn q t m hov
    simp [realign_moves, hov]
  · intro ovFn edFn q t m qs ts tc qc hov hrf hct hcq hed
    simp only [realign_moves, hov]
    rw [if_neg (by simp)]
    rw [hrf]
    simp only
    rw [hct, hcq]
    simp only
    rw [hed]

/-- Witness for C3: both failure modes at the concrete inputs of the
counterexample, through the amended theorem. -/
theorem realign_moves_failure_sentinel_witness :
    realign_moves overlapModel edlibModel origSeq50 revSeq50 [] = Except.ok failed_realignment
      ∧ realign_moves overlapStub edlibModel ['A', 'A', 'C'] ['A', 'A', 'G'] []
          = Except.ok failed_realignment :=
  ⟨realign_moves_failure_sentinel.1 overlapModel edlibModel origSeq50 revSeq50 [] rfl,
   realign_moves_failure_sentinel.2 overlapStub edlibModel ['A', 'A', 'C'] ['A', 'A', 'G'] []
     1 1 ['A', 'G'] ['A', 'C'] rfl rfl rfl rfl rfl⟩

/-- C5 counterexample: for identical sequences AA with reported overlap
starts (0, 0), the sequences already agree base-for-base at the reported
starts, yet the refinement scan of `realign_moves` (which pre-increments both
cursors before comparing) refines the window start to (1, 1), not (0, 0). -/
theorem refineScan_skips_agreeing_start :
    readChar ['A', 'A'] 0 = some 'A'
      ∧ refineScan ['A', 'A'] ['A', 'A'] 6 1 1 = Except.ok (1, 1)
      ∧ ((1 : Int), (1 : Int)) ≠ ((0 : Int), (0 : Int)) :=
  ⟨rfl, rfl, by decide⟩

/-- C5 amended: the refinement scan stops at the first offset at or after the
pre-incremented cursors (reported overlap starts plus one) at which the two
sequences agree under C++ string indexing (position `size()` reads the null
terminator); earlier offsets must disagree.  Moreover the scan has no bounds
check: on sequences with no agreeing position in range it runs past the end of
a sequence (undefined behaviour), as on the windows AC and CAG. -/
theorem refineScan_refinement :
    (∀ (q t : List Char) (qs ts : Int) (fuel k : Nat) (c : Char),
        0 ≤ qs → 0 ≤ ts → k < fuel →
        readChar q (qs + k) = some c → readChar t (ts + k) = some c →
        (∀ j : Nat, j < k → readChar q (qs + j) ≠ readChar t (ts + j)) →
        refineScan q t fuel qs ts = Except.ok (qs + k, ts + k))
      ∧ refineScan ['A', 'C'] ['C', 'A', 'G'] 7 1 1 = Except.error RErr.oobSeq :=
  ⟨fun q t qs ts fuel k c => refineScan_first q t k qs ts fuel c, rfl⟩

/-- Witness for C5: on the sequences CA and GA starting at cursors (0, 0),
the first agreement is at offset 1, and the scan stops exactly there. -/
theorem refineScan_refinement_witness :
    refineScan ['C', 'A'] ['G', 'A'] 5 0 0 = Except.ok (0 + ((1 : Nat) : Int), 0 + ((1 : Nat) : Int)) :=
  refineScan_refinement.1 ['C', 'A'] ['G', 'A'] 0 0 5 1 'A'
    (by omega) (by omega) (by omega) (by decide) (by decide) (by decide)

/-- C6: if either input sequence is empty, the overlap detector reports no
overlap (spec contract for the minimap2 collaborator), and `realign_moves`
returns the failure sentinel before ever consulting the edit-distance
aligner — the result is the same for every aligner `edlibFn` — with no
out-of-bounds access (the result is a normal return, not an error). -/
theorem realign_moves_empty_short_circuit
    (edlibFn : List Char → List Char → EdlibResult)
    (q t : List Char) (m : List Nat) (h : q = [] ∨ t = []) :
    realign_moves overlapModel edlibFn q t m = Except.ok failed_realignment := by
  have hov : (overlapModel q t).is_overlap = false := by
    rcases h with h | h
    · simp [overlapModel, h]
    · subst h
      by_cases hq : q = []
      · simp [overlapModel, hq]
      · simp [overlapModel, hq]
  simp [realign_moves, hov]

/-- Witness for C6 at an empty original sequence. -/
theorem realign_moves_empty_short_circuit_witness :
    realign_moves overlapModel edlibModel [] ['A'] [1] = Except.ok failed_realignment :=
  realign_moves_empty_short_circuit edlibModel [] ['A'] [1] (Or.inl rfl)
